import Mathlib

/-!
Verification of the approval-gated function-call mediator
(`ApprovalRequiredTool` in `src/04human-in-the-loop/human_in_the_loop.py`).

The embedding models Python values as the inductive `Val`, Python dicts as
insertion-ordered association lists with string keys, Python exceptions as
the `PyExc` type, and `ApprovalRequiredTool.__call__` as the function
`ApprovalRequiredTool.call`, which returns both the call's outcome
(`Except PyExc Val`: an escaping exception or a returned value) and an
observability trace (which callbacks were consulted, what was decided,
whether the no-callback warning was printed, whether the execution step was
entered, and the exact invocations of the wrapped target).

The standard-library JSON parser (`json.loads`) is an external collaborator:
it is modelled as an explicit parameter `jsonLoads : String → Option Val`
(`none` models a raised parse error, which the source catches with a bare
`except`).
-/

set_option autoImplicit false

namespace HumanInTheLoop

/-- Model of a Python runtime value, as far as the mediator observes it:
strings, ints, bools, None, lists and string-keyed dicts (JSON-reachable
dict keys are always strings; keyword-argument dict keys likewise). -/
inductive Val where
  | vStr : String → Val
  | vInt : Int → Val
  | vBool : Bool → Val
  | vNone : Val
  | vList : List Val → Val
  | vDict : List (String × Val) → Val
deriving Repr

/-- A Python dict with string keys: an insertion-ordered association list. -/
abbrev Dict := List (String × Val)

/-- Python truthiness (`bool(v)`) for the modelled values. -/
def Val.truthy : Val → Bool
  | Val.vStr s => !(s == "")
  | Val.vInt n => !(n == 0)
  | Val.vBool b => b
  | Val.vNone => false
  | Val.vList l => !l.isEmpty
  | Val.vDict d => !d.isEmpty

/-- Python `d.get(k)` restricted to the first matching key. -/
def dictGet : Dict → String → Option Val
  | [], _ => none
  | (k1, v1) :: rest, k => if k1 == k then some v1 else dictGet rest k

/-- Python `d.get(k, default)`. -/
def dictGetD (d : Dict) (k : String) (dflt : Val) : Val :=
  (dictGet d k).getD dflt

/-- Python `k in d`. -/
def dictContains (d : Dict) (k : String) : Bool :=
  (dictGet d k).isSome

/-- Python `d[k] = v`: replace in place when the key exists, append otherwise. -/
def dictSet : Dict → String → Val → Dict
  | [], k, v => [(k, v)]
  | (k1, v1) :: rest, k, v =>
      if k1 == k then (k1, v) :: rest else (k1, v1) :: dictSet rest k v

/-- Python `d.update(e)` for a dict argument `e`: set each of `e`'s entries
into `d`, left to right. -/
def dictUpdate : Dict → Dict → Dict
  | d, [] => d
  | d, (k, v) :: rest => dictUpdate (dictSet d k v) rest

/-- Model of a raised Python exception, tagged with `str(e)`. -/
inductive PyExc where
  | typeError : String → PyExc
  | exc : String → PyExc
deriving Repr, DecidableEq

/-- Python `str(e)` for a modelled exception. -/
def PyExc.msg : PyExc → String
  | PyExc.typeError m => m
  | PyExc.exc m => m

/-- Elements accepted by `dict.update` when its argument is a list: each
element must be a key/value pair, modelled as a two-element list whose first
component is a string key. Other element shapes (bare scalars and similar
non-pair elements, which CPython rejects with a TypeError or ValueError)
yield `none`, modelling the raise. -/
def updatePairs : List Val → Option (List (String × Val))
  | [] => some []
  | Val.vList [Val.vStr k, v] :: rest =>
      (updatePairs rest).map (fun ps => (k, v) :: ps)
  | _ :: _ => none

/-- Python `d.update(x)` for an arbitrary value `x`: a dict argument merges,
a list argument must be a list of key/value pairs, anything else raises
`TypeError`. -/
def dictUpdateVal (d : Dict) : Val → Except PyExc Dict
  | Val.vDict e => Except.ok (dictUpdate d e)
  | Val.vList l =>
      match updatePairs l with
      | some ps => Except.ok (dictUpdate d ps)
      | none => Except.error (PyExc.typeError "cannot convert dictionary update sequence to key/value pairs")
  | _ => Except.error (PyExc.typeError "update argument is not iterable")

/-- Whitespace characters removed by Python `str.strip()` (ASCII range). -/
def pyWhitespace (c : Char) : Bool :=
  c == ' ' || c == '\t' || c == '\n' || c == '\r' || c == '\x0b' || c == '\x0c'

/-- Embeds lines 71-79 of `human_in_the_loop.py`: turn the extra-value field
(`nested_kwargs_str`) into `nested_kwargs`. A truthy string whose
`strip()` is non-empty (that is, not all-whitespace) is handed to
`json.loads` under a bare `except` that falls back to `{}`; an empty or
whitespace-only string yields `{}`; a dict is kept as-is; any other value
yields `{}`. -/
def parseNestedKwargs (jsonLoads : String → Option Val) : Val → Val
  | Val.vStr s =>
      if s == "" then Val.vDict []
      else if s.data.all pyWhitespace then Val.vDict []
      else (jsonLoads s).getD (Val.vDict [])
  | Val.vDict d => Val.vDict d
  | _ => Val.vDict []

/-- Embeds line 63 of `human_in_the_loop.py`: the doubly-encoded shape is
detected by the presence of both reserved keys in the named-value mapping. -/
def usesNestedPath (kwargs : Dict) : Bool :=
  dictContains kwargs "args" && dictContains kwargs "kwargs"

/-- Embeds lines 65-92 of `human_in_the_loop.py` (the doubly-encoded branch):
read the scalar field (default `''`), parse the extra-value field (default
`'\x7b\x7d'`), and, when the signature is non-empty and the scalar truthy, bind
the scalar to the first declared parameter and merge the extras over it with
`dict.update` (which may raise when the parsed extras are not a mapping);
otherwise the result is the parsed extras value alone. -/
def normalizeNested (jsonLoads : String → Option Val) (paramNames : List String)
    (kwargs : Dict) : Except PyExc Val :=
  match paramNames, (dictGetD kwargs "args" (Val.vStr "")).truthy with
  | p :: _, true =>
      (dictUpdateVal [(p, dictGetD kwargs "args" (Val.vStr ""))]
        (parseNestedKwargs jsonLoads (dictGetD kwargs "kwargs" (Val.vStr "\x7b\x7d")))).map Val.vDict
  | _, _ =>
      Except.ok (parseNestedKwargs jsonLoads (dictGetD kwargs "kwargs" (Val.vStr "\x7b\x7d")))

/-- The normalization step of `__call__` as a whole: the doubly-encoded
branch when both reserved keys are present, otherwise the named-value
mapping unchanged (`actual_kwargs = kwargs`, line 107). -/
def normalizeRequest (jsonLoads : String → Option Val) (paramNames : List String)
    (kwargs : Dict) : Except PyExc Val :=
  if usesNestedPath kwargs then normalizeNested jsonLoads paramNames kwargs
  else Except.ok (Val.vDict kwargs)

/-- The `approval_info` dict built on lines 97-104 / 108-115 and passed to
the approval callback. -/
structure ApprovalInfo where
  function_name : String
  description : String
  args : List Val
  kwargs : Val

/-- The wrapper object: the wrapped target (`original_func`, modelled as a
function from positional and keyword arguments to a result or a raised
exception), its name, its description, its declared parameter names
(`inspect.signature`, line 84-85), and the optional approval callback. -/
structure ApprovalRequiredTool where
  original_func : List Val → Dict → Except PyExc Val
  func_name : String
  description : String
  param_names : List String
  approval_callback : Option (ApprovalInfo → Bool)

/-- Observability trace of one `__call__` invocation: the approval-callback
consultations, the values taken by `approved`, whether the no-callback
warning (line 122) was printed, whether the execution step (the `try` block,
lines 127-141) was entered, and the actual invocations of `original_func`
with their positional and keyword arguments. -/
structure CallTrace where
  callbackCalls : List ApprovalInfo
  decisions : List Bool
  warned : Bool
  sandboxEntered : Bool
  targetCalls : List (List Val × Dict)

/-- The outcome of one `__call__` invocation: the returned value, or the
escaping exception, together with the trace. -/
structure CallOutcome where
  result : Except PyExc Val
  trace : CallTrace

/-- Line 144: the rejection message. -/
def rejectionMessage (name : String) : String :=
  "⛔ Function \x27" ++ name ++ "\x27 was rejected by the user."

/-- Line 138: the execution-failure message. -/
def errorMessage (name : String) (e : PyExc) : String :=
  "❌ Error executing " ++ name ++ ": " ++ e.msg

/-- Embeds lines 127-141: run `original_func` with the given positional and
keyword arguments inside the `try` block; a raise is caught and converted to
the failure message. Also reports the recorded target invocation. -/
def sandboxRun (t : ApprovalRequiredTool) (posArgs : List Val) (d : Dict) :
    Except PyExc Val × List (List Val × Dict) :=
  match t.original_func posArgs d with
  | Except.ok r => (Except.ok r, [(posArgs, d)])
  | Except.error e => (Except.ok (Val.vStr (errorMessage t.func_name e)), [(posArgs, d)])

/-- Embeds line 130, `original_func(**actual_kwargs)`: when `actual_kwargs`
is not a mapping the `**`-unpacking itself raises a `TypeError` before the
target is entered; that raise happens inside the `try` block, so it is
caught and converted to the failure message, with no target invocation. -/
def sandboxRunKw (t : ApprovalRequiredTool) (kwVal : Val) :
    Except PyExc Val × List (List Val × Dict) :=
  match kwVal with
  | Val.vDict d => sandboxRun t [] d
  | _ => (Except.ok (Val.vStr (errorMessage t.func_name
      (PyExc.typeError "argument after ** must be a mapping"))), [])

/-- Embeds lines 117-144: consult the approval callback when one is set
(lines 118-119); otherwise print the warning and auto-approve (lines
121-123). On approval run the execution step; on rejection return the
rejection message without touching the target. -/
def approveAndRun (t : ApprovalRequiredTool) (info : ApprovalInfo)
    (go : Unit → Except PyExc Val × List (List Val × Dict)) : CallOutcome :=
  match t.approval_callback with
  | some cb =>
      if cb info then
        let r := go ()
        ⟨r.1, ⟨[info], [true], false, true, r.2⟩⟩
      else
        ⟨Except.ok (Val.vStr (rejectionMessage t.func_name)), ⟨[info], [false], false, false, []⟩⟩
  | none =>
      let r := go ()
      ⟨r.1, ⟨[], [true], true, true, r.2⟩⟩

/-- Embeds `ApprovalRequiredTool.__call__` (lines 56-144). In the
doubly-encoded branch, a raise from the normalization step (a `dict.update`
TypeError) escapes the call with an empty trace; otherwise the approval
request carries `args=()` and the unwrapped `actual_kwargs`, and execution
unpacks `actual_kwargs` as keyword arguments. In the direct branch the
approval request carries the original positional and named values and
execution forwards both unchanged (line 133). -/
def ApprovalRequiredTool.call (t : ApprovalRequiredTool)
    (jsonLoads : String → Option Val) (args : List Val) (kwargs : Dict) : CallOutcome :=
  if usesNestedPath kwargs then
    match normalizeNested jsonLoads t.param_names kwargs with
    | Except.error e => ⟨Except.error e, ⟨[], [], false, false, []⟩⟩
    | Except.ok actualKwargs =>
        approveAndRun t ⟨t.func_name, t.description, [], actualKwargs⟩
          (fun _ => sandboxRunKw t actualKwargs)
  else
    approveAndRun t ⟨t.func_name, t.description, args, Val.vDict kwargs⟩
      (fun _ => sandboxRun t args kwargs)

/-- Substring test on the underlying character lists: does `pat` occur as a
contiguous run at the front of `s`? -/
def leadsList : List Char → List Char → Bool
  | [], _ => true
  | _ :: _, [] => false
  | a :: as, b :: bs => a == b && leadsList as bs

/-- Substring test: does `pat` occur contiguously anywhere in `s`? -/
def occursIn (pat : List Char) : List Char → Bool
  | [] => leadsList pat []
  | c :: rest => leadsList pat (c :: rest) || occursIn pat rest

/-- `strContains s pat`: `pat` occurs as a contiguous substring of `s`. -/
def strContains (s pat : String) : Bool :=
  occursIn pat.data s.data

/-- A concrete fragment of the external structured-text parser
(`json.loads`), agreeing with it on the strings exercised by the concrete
scenarios below: `'\x7b\x7d'` parses to the empty mapping, `'[1, 2]'` parses to a
two-element list (a JSON value that is not a mapping), and the remaining
probed strings fail to parse. -/
def jsonLoadsDemo : String → Option Val
  | "\x7b\x7d" => some (Val.vDict [])
  | "[1, 2]" => some (Val.vList [Val.vInt 1, Val.vInt 2])
  | "\x7b\"filename\": \"other.txt\"\x7d" => some (Val.vDict [("filename", Val.vStr "other.txt")])
  | _ => none

/-- The wrapped delete operation of the demo (`delete_file_impl`): name,
description and one declared parameter `filename`, with an approval callback
registered, and a target that succeeds. Used to evaluate the mediator at
concrete inputs; the claims that concern the target's own behaviour
quantify over `original_func` instead. -/
def demoDeleteTool : ApprovalRequiredTool where
  original_func := fun _ _ => Except.ok (Val.vStr "deleted")
  func_name := "delete_file_impl"
  description := "Delete a file from the system"
  param_names := ["filename"]
  approval_callback := some (fun _ => true)

/-! ### Lookup lemmas for the dict model -/

theorem dictGet_cons (k1 : String) (v1 : Val) (rest : Dict) (k : String) :
    dictGet ((k1, v1) :: rest) k = if k1 == k then some v1 else dictGet rest k := rfl

theorem dictGet_dictSet_same (d : Dict) (k : String) (v : Val) :
    dictGet (dictSet d k v) k = some v := by
  induction d with
  | nil => simp [dictSet, dictGet]
  | cons p rest ih =>
      obtain ⟨k1, v1⟩ := p
      by_cases h : k1 = k
      · subst h
        simp [dictSet, dictGet]
      · simp [dictSet, dictGet, h, ih]

theorem dictGet_dictSet_ne (d : Dict) (k : String) (v : Val) (k' : String)
    (h : k' ≠ k) : dictGet (dictSet d k v) k' = dictGet d k' := by
  induction d with
  | nil =>
      have hk : ¬ k = k' := fun hh => h hh.symm
      simp [dictSet, dictGet, hk]
  | cons p rest ih =>
      obtain ⟨k1, v1⟩ := p
      by_cases h1 : k1 = k
      · subst h1
        have : ¬ k1 = k' := fun hh => h (hh ▸ rfl)
        simp [dictSet, dictGet, this]
      · simp [dictSet, dictGet, h1, ih]

theorem dictGet_eq_none_of_not_mem (e : Dict) (k : String)
    (h : k ∉ e.map Prod.fst) : dictGet e k = none := by
  induction e with
  | nil => rfl
  | cons p rest ih =>
      obtain ⟨k1, v1⟩ := p
      simp only [List.map_cons, List.mem_cons] at h
      push_neg at h
      have : ¬ k1 = k := fun hh => h.1 (hh ▸ rfl)
      simp [dictGet, this, ih h.2]

theorem dictGet_dictUpdate_of_not_contains (e : Dict) (d : Dict) (k : String)
    (h : dictContains e k = false) : dictGet (dictUpdate d e) k = dictGet d k := by
  induction e generalizing d with
  | nil => rfl
  | cons p rest ih =>
      obtain ⟨k1, v1⟩ := p
      simp only [dictContains, dictGet, Option.isSome] at h
      by_cases h1 : k1 = k
      · simp [h1] at h
      · have hfalse : dictContains rest k = false := by
          simp only [dictContains]
          simp only [beq_iff_eq, h1, if_false] at h
          cases hg : dictGet rest k with
          | none => rfl
          | some w => rw [hg] at h; exact absurd h (by simp)
        have hk : k ≠ k1 := fun hh => h1 hh.symm
        calc dictGet (dictUpdate (dictSet d k1 v1) rest) k
            = dictGet (dictSet d k1 v1) k := ih (dictSet d k1 v1) hfalse
          _ = dictGet d k := dictGet_dictSet_ne d k1 v1 k hk

theorem dictGet_dictUpdate_of_contains (e : Dict) (d : Dict) (k : String)
    (hnd : (e.map Prod.fst).Nodup) (h : dictContains e k = true) :
    dictGet (dictUpdate d e) k = dictGet e k := by
  induction e generalizing d with
  | nil => simp [dictContains, dictGet] at h
  | cons p rest ih =>
      obtain ⟨k1, v1⟩ := p
      simp only [List.map_cons, List.nodup_cons] at hnd
      by_cases h1 : k1 = k
      · subst h1
        have hnot : dictContains rest k1 = false := by
          simp only [dictContains]
          rw [dictGet_eq_none_of_not_mem rest k1 hnd.1]
          rfl
        calc dictGet (dictUpdate (dictSet d k1 v1) rest) k1
            = dictGet (dictSet d k1 v1) k1 :=
              dictGet_dictUpdate_of_not_contains rest (dictSet d k1 v1) k1 hnot
          _ = some v1 := dictGet_dictSet_same d k1 v1
          _ = dictGet ((k1, v1) :: rest) k1 := by simp [dictGet]
      · have hrest : dictContains rest k = true := by
          simp only [dictContains, dictGet, beq_iff_eq, h1, if_false] at h
          exact h
        calc dictGet (dictUpdate (dictSet d k1 v1) rest) k
            = dictGet rest k := ih (dictSet d k1 v1) hnd.2 hrest
          _ = dictGet ((k1, v1) :: rest) k := by simp [dictGet, h1]

/-! ### Normalization-level properties -/

/-- The extra-value shapes the source's fallback covers: a value that is
neither a string nor a mapping, an empty or whitespace-only string, or a
string on which the structured parse raises. -/
def fallsBackToEmpty (jsonLoads : String → Option Val) : Val → Prop
  | Val.vStr s => s = "" ∨ s.data.all pyWhitespace = true ∨ jsonLoads s = none
  | Val.vDict _ => False
  | _ => True

theorem parseNestedKwargs_fallback (jsonLoads : String → Option Val) (v : Val)
    (h : fallsBackToEmpty jsonLoads v) :
    parseNestedKwargs jsonLoads v = Val.vDict [] := by
  cases v with
  | vStr s =>
      rcases h with h | h | h
      · simp [parseNestedKwargs, h]
      · by_cases hs : s = ""
        · simp [parseNestedKwargs, hs]
        · simp [parseNestedKwargs, hs, h]
      · by_cases hs : s = ""
        · simp [parseNestedKwargs, hs]
        · by_cases hw : s.data.all pyWhitespace = true
          · simp [parseNestedKwargs, hs, hw]
          · simp [parseNestedKwargs, hs, hw, h]
  | vDict d => exact absurd h (by simp [fallsBackToEmpty])
  | vInt n => rfl
  | vBool b => rfl
  | vNone => rfl
  | vList l => rfl

/-- Claim C7: for every direct-shape request (one whose named-value mapping
does not contain both reserved keys), the normalization step returns the
request's named-value mapping unchanged. -/
theorem direct_shape_unchanged (jsonLoads : String → Option Val)
    (paramNames : List String) (kwargs : Dict)
    (hdirect : usesNestedPath kwargs = false) :
    normalizeRequest jsonLoads paramNames kwargs = Except.ok (Val.vDict kwargs) := by
  simp [normalizeRequest, hdirect]

/-- Witness for C7: a mapping carrying only the reserved key `args` is
direct, and normalizes to itself. -/
theorem direct_shape_unchanged_witness :
    normalizeRequest jsonLoadsDemo ["filename"] [("args", Val.vStr "notes.txt")]
      = Except.ok (Val.vDict [("args", Val.vStr "notes.txt")]) :=
  direct_shape_unchanged jsonLoadsDemo ["filename"] [("args", Val.vStr "notes.txt")] rfl

/-- Claim C8: a call request is classified as doubly-encoded if and only if
its named-value mapping contains both reserved keys; every other request is
treated as direct (its named-value mapping passes through unchanged), and a
doubly-encoded one goes through the unwrapping normalization. -/
theorem doubly_encoded_classification (jsonLoads : String → Option Val)
    (paramNames : List String) (kwargs : Dict) :
    (usesNestedPath kwargs = true ↔
      (dictContains kwargs "args" = true ∧ dictContains kwargs "kwargs" = true)) ∧
    (usesNestedPath kwargs = false →
      normalizeRequest jsonLoads paramNames kwargs = Except.ok (Val.vDict kwargs)) ∧
    (usesNestedPath kwargs = true →
      normalizeRequest jsonLoads paramNames kwargs = normalizeNested jsonLoads paramNames kwargs) := by
  refine ⟨?_, ?_, ?_⟩
  · simp [usesNestedPath]
  · intro h
    simp [normalizeRequest, h]
  · intro h
    simp [normalizeRequest, h]

/-- Witness for C8: a request with both reserved keys is doubly-encoded and
unwrapped; dropping one of the keys makes it direct. -/
theorem doubly_encoded_classification_witness :
    dictContains [("args", Val.vStr "x"), ("kwargs", Val.vStr "\x7b\x7d")] "args" = true ∧
    dictContains [("args", Val.vStr "x"), ("kwargs", Val.vStr "\x7b\x7d")] "kwargs" = true ∧
    usesNestedPath [("args", Val.vStr "x"), ("kwargs", Val.vStr "\x7b\x7d")] = true ∧
    normalizeRequest jsonLoadsDemo ["filename"] [("args", Val.vStr "x"), ("kwargs", Val.vStr "\x7b\x7d")]
      = normalizeNested jsonLoadsDemo ["filename"] [("args", Val.vStr "x"), ("kwargs", Val.vStr "\x7b\x7d")] :=
  ⟨rfl, rfl,
    (doubly_encoded_classification jsonLoadsDemo ["filename"]
      [("args", Val.vStr "x"), ("kwargs", Val.vStr "\x7b\x7d")]).1.mpr ⟨rfl, rfl⟩,
    (doubly_encoded_classification jsonLoadsDemo ["filename"]
      [("args", Val.vStr "x"), ("kwargs", Val.vStr "\x7b\x7d")]).2.2 rfl⟩

/-- Claim C10: in a doubly-encoded request, the scalar binding is applied
only when the scalar is truthy and the signature non-empty; with a falsy
scalar (or an empty signature) the normalized call is the parsed extras
alone. -/
theorem falsy_scalar_treated_absent (jsonLoads : String → Option Val)
    (paramNames : List String) (kwargs : Dict)
    (hnested : usesNestedPath kwargs = true)
    (h : (dictGetD kwargs "args" (Val.vStr "")).truthy = false ∨ paramNames = []) :
    normalizeRequest jsonLoads paramNames kwargs
      = Except.ok (parseNestedKwargs jsonLoads (dictGetD kwargs "kwargs" (Val.vStr "\x7b\x7d"))) := by
  rcases h with h | h
  · cases paramNames with
    | nil => simp [normalizeRequest, hnested, normalizeNested]
    | cons p rest => simp [normalizeRequest, hnested, normalizeNested, h]
  · subst h
    simp [normalizeRequest, hnested, normalizeNested]

/-- Witness for C10: a doubly-encoded request with the falsy scalar `''`
and extras `'\x7b\x7d'` normalizes to the empty mapping even though the
signature declares `filename`. -/
theorem falsy_scalar_treated_absent_witness :
    normalizeRequest jsonLoadsDemo ["filename"]
        [("args", Val.vStr ""), ("kwargs", Val.vStr "\x7b\x7d")]
      = Except.ok (Val.vDict []) :=
  falsy_scalar_treated_absent jsonLoadsDemo ["filename"]
    [("args", Val.vStr ""), ("kwargs", Val.vStr "\x7b\x7d")] rfl (Or.inl rfl)

/-- Claim C5: for a doubly-encoded request with a (present, that is truthy)
scalar `S` and extras that parse to a mapping `ext`, normalization yields
`\x7bP: S\x7d` merged with `ext` under `dict.update`, whose entries override the
scalar binding for the same key (named precedence). -/
theorem nested_scalar_binding_merge (jsonLoads : String → Option Val)
    (p : String) (rest : List String) (kwargs : Dict) (S : Val) (ext : Dict)
    (hnested : usesNestedPath kwargs = true)
    (hS : dictGetD kwargs "args" (Val.vStr "") = S)
    (htruthy : S.truthy = true)
    (hext : parseNestedKwargs jsonLoads (dictGetD kwargs "kwargs" (Val.vStr "\x7b\x7d")) = Val.vDict ext) :
    normalizeRequest jsonLoads (p :: rest) kwargs
      = Except.ok (Val.vDict (dictUpdate [(p, S)] ext)) ∧
    ((ext.map Prod.fst).Nodup → dictContains ext p = true →
      dictGet (dictUpdate [(p, S)] ext) p = dictGet ext p) := by
  constructor
  · simp [normalizeRequest, hnested, normalizeNested, hS, htruthy, hext, dictUpdateVal,
      Except.map]
  · intro hnd hp
    exact dictGet_dictUpdate_of_contains ext [(p, S)] p hnd hp

/-- Witness for C5, the spec scenario: `\x7bargs: "notes.txt", kwargs: "\x7b\x7d"\x7d`
against the one-parameter signature `filename` normalizes to
`\x7bfilename: "notes.txt"\x7d`, and when the extras bind `filename` themselves
the extras' value wins. -/
theorem nested_scalar_binding_merge_witness :
    normalizeRequest jsonLoadsDemo ["filename"]
        [("args", Val.vStr "notes.txt"), ("kwargs", Val.vStr "\x7b\x7d")]
      = Except.ok (Val.vDict [("filename", Val.vStr "notes.txt")]) ∧
    dictGet (dictUpdate [("filename", Val.vStr "notes.txt")] [("filename", Val.vStr "other.txt")]) "filename"
      = dictGet [("filename", Val.vStr "other.txt")] "filename" :=
  ⟨(nested_scalar_binding_merge jsonLoadsDemo "filename" []
      [("args", Val.vStr "notes.txt"), ("kwargs", Val.vStr "\x7b\x7d")]
      (Val.vStr "notes.txt") [] rfl rfl rfl rfl).1,
   (nested_scalar_binding_merge jsonLoadsDemo "filename" []
      [("args", Val.vStr "notes.txt"), ("kwargs", Val.vStr "\x7b\"filename\": \"other.txt\"\x7d")]
      (Val.vStr "notes.txt") [("filename", Val.vStr "other.txt")] rfl rfl rfl
      (by rfl)).2 (by simp) rfl⟩

/-- Claim C1 (failing input): at the doubly-encoded request
`\x7bargs: "notes.txt", kwargs: "[1, 2]"\x7d` against the one-parameter target
`delete_file_impl`, the extra-value string parses to a list, and
`actual_kwargs.update(...)` on line 90 raises a `TypeError` outside every
`try` block: the call escapes with an exception instead of returning a
string, and the target is never reached. -/
theorem nested_nonmapping_extras_raises :
    (demoDeleteTool.call jsonLoadsDemo []
        [("args", Val.vStr "notes.txt"), ("kwargs", Val.vStr "[1, 2]")]).result
      = Except.error (PyExc.typeError "cannot convert dictionary update sequence to key/value pairs") ∧
    (demoDeleteTool.call jsonLoadsDemo []
        [("args", Val.vStr "notes.txt"), ("kwargs", Val.vStr "[1, 2]")]).trace.targetCalls = [] :=
  ⟨rfl, rfl⟩

/-- Counterexample to claim C2 as stated: the extra-value string `'[1, 2]'`
is malformed in the claim's sense (not a mapping, and a string that parses
to a list rather than a mapping), yet normalization does not fall back to an
empty extras mapping: it raises. -/
theorem malformed_extras_counterexample :
    normalizeRequest jsonLoadsDemo ["filename"]
        [("args", Val.vStr "notes.txt"), ("kwargs", Val.vStr "[1, 2]")]
      = Except.error (PyExc.typeError "cannot convert dictionary update sequence to key/value pairs") :=
  rfl

/-- Claim C2 (amended): for every doubly-encoded request whose extra-value
field is a non-string non-mapping value, an empty or whitespace-only string,
or a string on which the structured parse raises, normalization does not
raise and falls back to an empty extras mapping, so the normalized call is
exactly the scalar binding to the first declared parameter (or the empty
mapping when the scalar is falsy or the signature is empty). -/
theorem malformed_extras_fallback (jsonLoads : String → Option Val)
    (paramNames : List String) (kwargs : Dict)
    (hnested : usesNestedPath kwargs = true)
    (hmal : fallsBackToEmpty jsonLoads (dictGetD kwargs "kwargs" (Val.vStr "\x7b\x7d"))) :
    normalizeRequest jsonLoads paramNames kwargs
      = Except.ok (Val.vDict
          (match paramNames, (dictGetD kwargs "args" (Val.vStr "")).truthy with
           | p :: _, true => [(p, dictGetD kwargs "args" (Val.vStr ""))]
           | _, _ => [])) := by
  have hparse := parseNestedKwargs_fallback jsonLoads
    (dictGetD kwargs "kwargs" (Val.vStr "\x7b\x7d")) hmal
  cases paramNames with
  | nil => simp [normalizeRequest, hnested, normalizeNested, hparse]
  | cons p rest =>
      cases htr : (dictGetD kwargs "args" (Val.vStr "")).truthy with
      | false => simp [normalizeRequest, hnested, normalizeNested, htr, hparse]
      | true =>
          simp [normalizeRequest, hnested, normalizeNested, htr, hparse, dictUpdateVal,
            dictUpdate, dictSet, Except.map]

/-- Witness for the amended C2: the unparseable extra-value string
`'not json at all'` falls back to the empty mapping, leaving exactly the
scalar binding. -/
theorem malformed_extras_fallback_witness :
    normalizeRequest jsonLoadsDemo ["filename"]
        [("args", Val.vStr "notes.txt"), ("kwargs", Val.vStr "not json at all")]
      = Except.ok (Val.vDict [("filename", Val.vStr "notes.txt")]) :=
  malformed_extras_fallback jsonLoadsDemo ["filename"]
    [("args", Val.vStr "notes.txt"), ("kwargs", Val.vStr "not json at all")]
    rfl (Or.inr (Or.inr rfl))

/-! ### Mediator-level properties -/

/-- Claim C3: whenever the registered approval callback answers false, the
wrapped target is never invoked, and if the callback was consulted at all
the mediator returns the rejection message naming the operation; for
`delete_file_impl` that message contains `rejected` and `delete_file_impl`. -/
theorem rejection_law (jsonLoads : String → Option Val) (t : ApprovalRequiredTool)
    (cb : ApprovalInfo → Bool) (args : List Val) (kwargs : Dict)
    (hcb : t.approval_callback = some cb) (hfalse : ∀ i, cb i = false) :
    (t.call jsonLoads args kwargs).trace.targetCalls = [] ∧
    ((t.call jsonLoads args kwargs).trace.callbackCalls ≠ [] →
      (t.call jsonLoads args kwargs).result
        = Except.ok (Val.vStr (rejectionMessage t.func_name))) ∧
    strContains (rejectionMessage "delete_file_impl") "rejected" = true ∧
    strContains (rejectionMessage "delete_file_impl") "delete_file_impl" = true := by
  have hmain : (t.call jsonLoads args kwargs).trace.targetCalls = [] ∧
      ((t.call jsonLoads args kwargs).trace.callbackCalls ≠ [] →
        (t.call jsonLoads args kwargs).result
          = Except.ok (Val.vStr (rejectionMessage t.func_name))) := by
    unfold ApprovalRequiredTool.call
    by_cases hn : usesNestedPath kwargs = true
    · simp only [hn, if_true]
      cases hnorm : normalizeNested jsonLoads t.param_names kwargs with
      | error e => simp
      | ok a => simp [approveAndRun, hcb, hfalse]
    · simp only [Bool.not_eq_true] at hn
      simp [hn, approveAndRun, hcb, hfalse]
  exact ⟨hmain.1, hmain.2, rfl, rfl⟩

/-- The demo delete tool with a callback that always rejects. -/
def rejectTool : ApprovalRequiredTool :=
  { demoDeleteTool with approval_callback := some (fun _ => false) }

/-- Witness for C3: a rejected direct call to `delete_file_impl` invokes no
target and returns the rejection message. -/
theorem rejection_law_witness :
    (rejectTool.call jsonLoadsDemo [] [("filename", Val.vStr "notes.txt")]).trace.targetCalls = [] ∧
    (rejectTool.call jsonLoadsDemo [] [("filename", Val.vStr "notes.txt")]).result
      = Except.ok (Val.vStr (rejectionMessage "delete_file_impl")) :=
  ⟨(rejection_law jsonLoadsDemo rejectTool (fun _ => false) []
      [("filename", Val.vStr "notes.txt")] rfl (fun _ => rfl)).1,
   (rejection_law jsonLoadsDemo rejectTool (fun _ => false) []
      [("filename", Val.vStr "notes.txt")] rfl (fun _ => rfl)).2.1
      (List.cons_ne_nil _ _)⟩

/-- Claim C4: for a target operation that raises, whenever the mediator's
call actually invoked the target, the call returns the failure text naming
the target and the raised description instead of propagating the exception;
for a raise with message `disk full` the text contains `Error` and
`disk full`. -/
theorem failure_containment (jsonLoads : String → Option Val) (t : ApprovalRequiredTool)
    (args : List Val) (kwargs : Dict) (e : PyExc)
    (htarget : ∀ pos d, t.original_func pos d = Except.error e) :
    ((t.call jsonLoads args kwargs).trace.targetCalls ≠ [] →
      (t.call jsonLoads args kwargs).result
        = Except.ok (Val.vStr (errorMessage t.func_name e))) ∧
    strContains (errorMessage "delete_file_impl" (PyExc.exc "disk full")) "Error" = true ∧
    strContains (errorMessage "delete_file_impl" (PyExc.exc "disk full")) "disk full" = true := by
  refine ⟨?_, rfl, rfl⟩
  unfold ApprovalRequiredTool.call
  by_cases hn : usesNestedPath kwargs = true
  · simp only [hn, if_true]
    cases hnorm : normalizeNested jsonLoads t.param_names kwargs with
    | error e' => simp
    | ok a =>
        cases hcb : t.approval_callback with
        | none => cases a <;> simp [approveAndRun, sandboxRunKw, sandboxRun, htarget, hcb]
        | some cb =>
            cases hap : cb ⟨t.func_name, t.description, [], a⟩ <;>
              cases a <;> simp [approveAndRun, sandboxRunKw, sandboxRun, htarget, hap, hcb]
  · simp only [Bool.not_eq_true] at hn
    cases hcb : t.approval_callback with
    | none => simp [hn, approveAndRun, sandboxRun, htarget, hcb]
    | some cb =>
        cases hap : cb ⟨t.func_name, t.description, args, Val.vDict kwargs⟩ <;>
          simp [hn, approveAndRun, sandboxRun, htarget, hap, hcb]

/-- The demo delete tool whose target raises `disk full`. -/
def failTool : ApprovalRequiredTool :=
  { demoDeleteTool with original_func := fun _ _ => Except.error (PyExc.exc "disk full") }

/-- Witness for C4: an approved direct call whose target raises `disk full`
returns the failure text and does not raise. -/
theorem failure_containment_witness :
    (failTool.call jsonLoadsDemo [] [("filename", Val.vStr "notes.txt")]).result
      = Except.ok (Val.vStr (errorMessage "delete_file_impl" (PyExc.exc "disk full"))) :=
  (failure_containment jsonLoadsDemo failTool [] [("filename", Val.vStr "notes.txt")]
    (PyExc.exc "disk full") (fun _ _ => rfl)).1 (List.cons_ne_nil _ _)

/-- Claim C6 (amended): when no approval callback is registered, any call
that reaches the decision point (one whose normalization does not raise) is
auto-approved with the warning emitted, and the execution step is entered.
The unamended claim, quantifying over every no-callback call, is refuted by
the counterexample below: a call that raises during normalization produces
no decision, no warning and no execution. -/
theorem no_callback_auto_approves (jsonLoads : String → Option Val)
    (t : ApprovalRequiredTool) (args : List Val) (kwargs : Dict)
    (hnone : t.approval_callback = none)
    (hreach : (t.call jsonLoads args kwargs).trace.decisions ≠ []) :
    (t.call jsonLoads args kwargs).trace.decisions = [true] ∧
    (t.call jsonLoads args kwargs).trace.warned = true ∧
    (t.call jsonLoads args kwargs).trace.sandboxEntered = true := by
  unfold ApprovalRequiredTool.call at hreach ⊢
  by_cases hn : usesNestedPath kwargs = true
  · simp only [hn, if_true] at hreach ⊢
    cases hnorm : normalizeNested jsonLoads t.param_names kwargs with
    | error e =>
        rw [hnorm] at hreach
        simp at hreach
    | ok a => simp [approveAndRun, hnone]
  · simp only [Bool.not_eq_true] at hn
    simp [hn, approveAndRun, hnone]

/-- The demo delete tool with no approval callback registered. -/
def noCallbackTool : ApprovalRequiredTool :=
  { demoDeleteTool with approval_callback := none }

/-- Counterexample to claim C6 as stated: with no approval callback
registered, the doubly-encoded call `\x7bargs: "notes.txt", kwargs: "[1, 2]"\x7d`
raises during normalization, before the decision point: no decision is made
(so none is "automatically true"), the warning is never emitted, the
execution step is never entered, and the target is never invoked. -/
theorem no_callback_counterexample :
    noCallbackTool.approval_callback = none ∧
    (noCallbackTool.call jsonLoadsDemo []
        [("args", Val.vStr "notes.txt"), ("kwargs", Val.vStr "[1, 2]")]).trace.decisions = [] ∧
    (noCallbackTool.call jsonLoadsDemo []
        [("args", Val.vStr "notes.txt"), ("kwargs", Val.vStr "[1, 2]")]).trace.warned = false ∧
    (noCallbackTool.call jsonLoadsDemo []
        [("args", Val.vStr "notes.txt"), ("kwargs", Val.vStr "[1, 2]")]).trace.sandboxEntered = false ∧
    (noCallbackTool.call jsonLoadsDemo []
        [("args", Val.vStr "notes.txt"), ("kwargs", Val.vStr "[1, 2]")]).trace.targetCalls = [] :=
  ⟨rfl, rfl, rfl, rfl, rfl⟩

/-- Witness for C6: with no callback registered, a direct call is
auto-approved, warned about, and executed. -/
theorem no_callback_auto_approves_witness :
    (noCallbackTool.call jsonLoadsDemo [] [("filename", Val.vStr "notes.txt")]).trace.decisions = [true] ∧
    (noCallbackTool.call jsonLoadsDemo [] [("filename", Val.vStr "notes.txt")]).trace.warned = true ∧
    (noCallbackTool.call jsonLoadsDemo [] [("filename", Val.vStr "notes.txt")]).trace.sandboxEntered = true :=
  no_callback_auto_approves jsonLoadsDemo noCallbackTool []
    [("filename", Val.vStr "notes.txt")] rfl (List.cons_ne_nil _ _)

/-- Claim C9: an approved direct-shape call forwards the original positional
sequence and the original named mapping to the target in a single
invocation. -/
theorem direct_positional_forwarding (jsonLoads : String → Option Val)
    (t : ApprovalRequiredTool) (args : List Val) (kwargs : Dict)
    (hdirect : usesNestedPath kwargs = false)
    (happ : (t.call jsonLoads args kwargs).trace.decisions = [true]) :
    (t.call jsonLoads args kwargs).trace.targetCalls = [(args, kwargs)] := by
  unfold ApprovalRequiredTool.call approveAndRun at happ ⊢
  simp only [hdirect, Bool.false_eq_true, if_false] at happ ⊢
  cases hcb : t.approval_callback with
  | none =>
      cases hres : t.original_func args kwargs <;>
        simp [hcb, sandboxRun, hres]
  | some cb =>
      rw [hcb] at happ
      cases hap : cb ⟨t.func_name, t.description, args, Val.vDict kwargs⟩ with
      | false => simp [hap] at happ
      | true =>
          cases hres : t.original_func args kwargs <;>
            simp [hcb, hap, sandboxRun, hres]

/-- Witness for C9: an approved direct call carrying one positional value
invokes the target with exactly that positional value and the original
(empty) named mapping. -/
theorem direct_positional_forwarding_witness :
    (demoDeleteTool.call jsonLoadsDemo [Val.vStr "notes.txt"] []).trace.targetCalls
      = [([Val.vStr "notes.txt"], [])] :=
  direct_positional_forwarding jsonLoadsDemo demoDeleteTool [Val.vStr "notes.txt"] []
    rfl rfl

end HumanInTheLoop
